import Mathlib

/-!
Shallow embedding of `src/DefaultTestReporter.js`: a terminal reporter for a
test run.  Pure data is modelled with Lean structures; every write to the two
output streams becomes an event in a trace (`OutEvent`); the external colour
library is kept symbolic (a `colorize` function threaded as a parameter and an
inductive type of colour codes); JavaScript `throw` becomes an error value
threaded out of the call.
-/

namespace Reporter

/-- Modelled from the spec: the colour-code constants of the external module
`./lib/colors` (not part of the analysed source).  Each constant is an opaque,
pairwise-distinct code; JavaScript string concatenation of codes becomes list
concatenation. -/
inductive ColorCode where
  | RESET | BOLD | GRAY | RED | RED_BG | GREEN | GREEN_BG | YELLOW
deriving DecidableEq, Repr

/-- A colour specification: a concatenation of colour codes. -/
def Color : Type := List ColorCode

deriving instance DecidableEq for Color

/-- `colors.RED_BG + colors.BOLD` (line 15 of the source). -/
def FAIL_COLOR : Color := [.RED_BG, .BOLD]

/-- `colors.GREEN_BG + colors.BOLD` (line 16 of the source). -/
def PASS_COLOR : Color := [.GREEN_BG, .BOLD]

/-- `colors.BOLD` (line 17 of the source). -/
def TEST_NAME_COLOR : Color := [.BOLD]

/-- A single write to one of the two output streams. -/
inductive OutEvent where
  | out (s : String)
  | err (s : String)
deriving DecidableEq, Repr

/-- A leaf test-case result: `title`, `ancestorTitles`, `failureMessages`. -/
structure TestCaseResult where
  title : String
  ancestorTitles : List String
  failureMessages : List String
deriving DecidableEq, Repr

/-- `perfStats {start, end}`, milliseconds; JavaScript numbers become `ℚ`. -/
structure PerfStats where
  start : ℚ
  «end» : ℚ
deriving DecidableEq, Repr

/-- One captured console message `{type, data}`; `type` is a plain string
because the source dispatches on string values. -/
structure ConsoleMessage where
  type : String
  data : String
deriving DecidableEq, Repr

/-- The per-file result structure consumed by `onTestResult`. -/
structure TestResult where
  testFilePath : String
  testExecError : Option String
  numFailingTests : Nat
  perfStats : Option PerfStats
  logMessages : List ConsoleMessage
  testResults : List TestCaseResult
deriving DecidableEq, Repr

/-- Aggregated run state read by the reporter. -/
structure AggregatedResults where
  numPassedTests : Nat
  numFailedTests : Nat
  numTotalTests : Nat
  runTime : ℚ
deriving DecidableEq, Repr

/-- The configuration flags the reporter consumes. -/
structure Config where
  rootDir : Option String
  verbose : Bool
  noHighlight : Bool
deriving DecidableEq, Repr

/-- Modelled from the spec: host-language rendering of a number into a string
(exact for integers, which is all the development evaluates concretely). -/
def ratStr (q : ℚ) : String :=
  if q.den = 1 then toString q.num else toString q.num ++ "/" ++ toString q.den

/-- JavaScript string conversion of a possibly-`null` number: concatenating
`null` onto a string appends the four letters of `null`. -/
def jsToString : Option ℚ → String
  | none => "null"
  | some q => ratStr q

/-- JavaScript numeric coercion used by a relational comparison:
`null` compares as `+0`. -/
def jsNumOf : Option ℚ → ℚ
  | none => 0
  | some q => q

/-- `_formatMsg` (lines 202-207): identity under `noHighlight`, otherwise
`colors.colorize(msg, color)`; the external `colorize` is a parameter. -/
def formatMsg (cfg : Config) (colorize : String → Color → String)
    (msg : String) (color : Color) : String :=
  if cfg.noHighlight then msg else colorize msg color

/-- `_clearWaitingOn` (lines 193-200): a plain newline under `noHighlight`,
otherwise the ANSI carriage-return-plus-clear-to-end-of-line sequence. -/
def clearWaitingOn (cfg : Config) : List OutEvent :=
  [.out (if cfg.noHighlight then "\n" else "\r\x1B[K")]

/-- The remaining-test count computed by `_printWaitingOn` (lines 222-225),
in `ℤ` because JavaScript subtraction can go negative. -/
def remainingTests (agg : AggregatedResults) : ℤ :=
  (agg.numTotalTests : ℤ) - ((agg.numPassedTests : ℤ) + (agg.numFailedTests : ℤ))

/-- `_printWaitingOn` (lines 221-235): writes the waiting line, without a
trailing newline, when the remaining count is positive. -/
def printWaitingOn (cfg : Config) (colorize : String → Color → String)
    (agg : AggregatedResults) : List OutEvent :=
  let remaining := remainingTests agg
  if remaining > 0 then
    [.out (formatMsg cfg colorize
      ("Waiting on " ++ toString remaining ++ " " ++
        (if remaining = 1 then "test" else "tests") ++ "...")
      ([.GRAY] ++ [.BOLD]))]
  else []

/-- `_getResultHeader` (lines 209-219): the colorized PASS/FAIL tag, the
colorized file label, and the extra columns, space-joined. -/
def getResultHeader (cfg : Config) (colorize : String → Color → String)
    (passed : Bool) (testName : String) (columns : List String) : String :=
  let passFailTag :=
    if passed then formatMsg cfg colorize " PASS " PASS_COLOR
    else formatMsg cfg colorize " FAIL " FAIL_COLOR
  String.intercalate " "
    ([passFailTag, formatMsg cfg colorize testName TEST_NAME_COLOR] ++ columns)

/-- `_printConsoleMessage` (lines 172-191): `dir`/`log` verbatim to standard
output, `warn`/`error` colorized to standard error, anything else throws. -/
def printConsoleMessage (cfg : Config) (colorize : String → Color → String)
    (m : ConsoleMessage) : Except String (List OutEvent) :=
  if m.type = "dir" ∨ m.type = "log" then
    .ok [.out m.data]
  else if m.type = "warn" then
    .ok [.err (formatMsg cfg colorize m.data [.YELLOW])]
  else if m.type = "error" then
    .ok [.err (formatMsg cfg colorize m.data [.RED])]
  else
    .error ("Unknown console message type!: " ++ m.type)

/-- The `forEach` over `logMessages` (line 134): events written before the
first unknown message type, and the error it raised, if any. -/
def runMessages (cfg : Config) (colorize : String → Color → String) :
    List ConsoleMessage → List OutEvent × Option String
  | [] => ([], none)
  | m :: ms =>
    match printConsoleMessage cfg colorize m with
    | .ok evs =>
      let rest := runMessages cfg colorize ms
      (evs ++ rest.1, rest.2)
    | .error e => ([], some e)

/-- `onRunComplete` (lines 143-170): nothing for a zero total, otherwise the
combined counts line followed by the run-time line. -/
def onRunComplete (cfg : Config) (colorize : String → Color → String)
    (agg : AggregatedResults) : List OutEvent :=
  if agg.numTotalTests = 0 then []
  else
    let failedPart :=
      if agg.numFailedTests ≠ 0 then
        formatMsg cfg colorize
          (toString agg.numFailedTests ++ " test" ++
            (if agg.numFailedTests = 1 then "" else "s") ++ " failed")
          ([.RED] ++ [.BOLD]) ++ ", "
      else ""
    let results :=
      failedPart ++
      formatMsg cfg colorize
        (toString agg.numPassedTests ++ " test" ++
          (if agg.numPassedTests = 1 then "" else "s") ++ " passed")
        ([.GREEN] ++ [.BOLD]) ++
      " (" ++ toString agg.numTotalTests ++ " total)"
    [.out (results ++ "\n"),
     .out ("Run time: " ++ ratStr agg.runTime ++ "s\n")]

/-- `testRunTime` (lines 50-53): `(end - start) / 1000` seconds when
`perfStats` is present, `null` otherwise. -/
def testRunTime (ps : Option PerfStats) : Option ℚ :=
  ps.map (fun p => (p.«end» - p.start) / 1000)

/-- `testRunTimeString` (lines 55-58): the run time wrapped in parentheses
with a trailing `s`, colorized with the FAIL colour scheme when the run time
compares greater than 2.5. -/
def testRunTimeString (cfg : Config) (colorize : String → Color → String)
    (ps : Option PerfStats) : String :=
  let t := testRunTime ps
  let s := "(" ++ jsToString t ++ "s)"
  if jsNumOf t > 5 / 2 then formatMsg cfg colorize s FAIL_COLOR else s

/-- Modelled from the spec: the `GroupNode` tree entity of the external
`VerboseTestResultsTree` collaborator (`./lib/utils`, not part of the analysed
source): a list of own `cases` and an insertion-ordered map from child-group
title to child `GroupNode`, represented as an association list (the spec's
explicit ordered map with no inherited keys). -/
inductive GroupNode where
  | mk (cases : List TestCaseResult) (children : List (String × GroupNode))

/-- The own cases of a group. -/
def GroupNode.cases : GroupNode → List TestCaseResult
  | .mk cs _ => cs

/-- The insertion-ordered children of a group. -/
def GroupNode.children : GroupNode → List (String × GroupNode)
  | .mk _ ch => ch

/-- The empty group: no cases, no children. -/
def emptyGroup : GroupNode := .mk [] []

/-- First child stored under a title, if any. -/
def findChild (t : String) : List (String × GroupNode) → Option GroupNode
  | [] => none
  | (k, v) :: tl => if k = t then some v else findChild t tl

/-- Replace the first child stored under a title. -/
def replaceChild (t : String) (v : GroupNode) :
    List (String × GroupNode) → List (String × GroupNode)
  | [] => []
  | (k, w) :: tl => if k = t then (k, v) :: tl else (k, w) :: replaceChild t v tl

/-- Modelled from the spec: the insert-or-reuse walk of the external tree
builder (`VerboseTestResultsTree`, missing from the source): descend along the
ancestor-title path, creating an empty group on first occurrence of a segment
and reusing the existing one otherwise, and append the case to the `cases`
list of the node at the end of the walk. -/
def insertCase (r : TestCaseResult) : List String → GroupNode → GroupNode
  | [], .mk cs ch => .mk (cs ++ [r]) ch
  | t :: rest, .mk cs ch =>
    match findChild t ch with
    | some sub => .mk cs (replaceChild t (insertCase r rest sub) ch)
    | none => .mk cs (ch ++ [(t, insertCase r rest emptyGroup)])

/-- Modelled from the spec: `build` of the external ResultTreeBuilder — fold
the input cases, in order, into an initially empty root. -/
def buildTree (results : List TestCaseResult) : GroupNode :=
  results.foldl (fun g r => insertCase r r.ancestorTitles g) emptyGroup

/-- The node reached from a group by a title path. -/
def nodeAt (g : GroupNode) : List String → Option GroupNode
  | [] => some g
  | t :: rest =>
    match findChild t g.children with
    | some sub => nodeAt sub rest
    | none => none

/-- The cases stored at a title path (empty when no node is there). -/
def casesAt (g : GroupNode) (p : List String) : List TestCaseResult :=
  match nodeAt g p with
  | some n => n.cases
  | none => []

/-- The leaf cases of a forest of children, paired with their depth, where the
cases of a root-level child group sit at depth `d`. -/
def leavesF (d : Nat) : List (String × GroupNode) → List (TestCaseResult × Nat)
  | [] => []
  | (_, .mk cs ch) :: rest =>
    cs.map (fun c => (c, d)) ++ leavesF (d + 1) ch ++ leavesF d rest

/-- The leaf cases of a group paired with their depth: own cases at depth `d`,
descendants deeper. -/
def leavesNode (d : Nat) : GroupNode → List (TestCaseResult × Nat)
  | .mk cs ch => cs.map (fun c => (c, d)) ++ leavesF (d + 1) ch

/-- Two-space indentation repeated `d` times. -/
def indentStr (d : Nat) : String := String.join (List.replicate d "  ")

/-- Modelled from the spec: one rendered line for a leaf case at indentation
level `d`: the indented title, colorized PASS when `failureMessages` is empty
and FAIL otherwise. -/
def caseLine (cfg : Config) (colorize : String → Color → String) (d : Nat)
    (c : TestCaseResult) : String :=
  formatMsg cfg colorize (indentStr d ++ c.title)
    (if c.failureMessages = [] then PASS_COLOR else FAIL_COLOR)

/-- Modelled from the spec: the depth-first emission loop of the external
ResultTreeRenderer (`VerboseTestResultsTree`, missing from the source),
written as the renderer runs: lines are appended one by one to the output
accumulated so far; a group at depth `d` appends its title line, then its own
case lines, then recurses into its children at depth `d + 1`, then continues
with its siblings. -/
def renderInto (cfg : Config) (colorize : String → Color → String)
    (acc : List String) : List (String × GroupNode) → Nat → List String
  | [], _ => acc
  | (t, .mk cs ch) :: rest, d =>
    let acc1 := acc ++ [indentStr d ++ t]
    let acc2 := acc1 ++ cs.map (caseLine cfg colorize (d + 1))
    let acc3 := renderInto cfg colorize acc2 ch (d + 1)
    renderInto cfg colorize acc3 rest d

/-- Modelled from the spec: the declarative description of the renderer's
output, following the spec's words — a group visited at depth `d` contributes
its indented title line, then its own colorized case lines, then its
children's lines at depth `d + 1`, then its later siblings' lines at depth
`d`.  Compared below with `renderInto`, the line-by-line emission loop. -/
def renderF (cfg : Config) (colorize : String → Color → String) :
    List (String × GroupNode) → Nat → List String
  | [], _ => []
  | (t, .mk cs ch) :: rest, d =>
    (indentStr d ++ t) ::
      (cs.map (caseLine cfg colorize (d + 1)) ++
        renderF cfg colorize ch (d + 1) ++ renderF cfg colorize rest d)

/-- Modelled from the spec: the rendered lines of a whole tree — the root is
never printed as a line; its direct cases render first with a single leading
indent unit, then its children render at depth `0`. -/
def renderTreeLines (cfg : Config) (colorize : String → Color → String)
    (root : GroupNode) : List String :=
  root.cases.map (caseLine cfg colorize 1) ++
    renderInto cfg colorize [] root.children 0

/-- Modelled from the spec: `VerboseTestResultsTree(results, log, formatMsg)`
followed by `.init()` (lines 126-127): build the tree from the file's cases
and emit each rendered line through `log` (which appends a newline). -/
def verboseTreeEvents (cfg : Config) (colorize : String → Color → String)
    (results : List TestCaseResult) : List OutEvent :=
  (renderTreeLines cfg colorize (buildTree results)).map
    (fun s => .out (s ++ "\n"))

/-- The display path (lines 37-40): `path.relative(rootDir, testFilePath)`
when a root directory is configured, the raw path otherwise; the external
`path.relative` is the parameter `rel`. -/
def pathString (cfg : Config) (rel : String → String → String)
    (filePath : String) : String :=
  match cfg.rootDir with
  | some root => rel root filePath
  | none => filePath

/-- `onTestResult` (lines 33-141).  Parameters `rel` (the external
`path.relative`) and `fmtFailure` (the external `formatFailureMessage`) keep
collaborators symbolic.  The result is the trace of stream writes paired with
the call's outcome: `.ok (some false)` for the `testExecError` early return,
`.ok none` for a normal completion, `.error e` when a console message threw. -/
def onTestResult (cfg : Config) (colorize : String → Color → String)
    (rel : String → String → String)
    (fmtFailure : TestResult → Bool → String)
    (res : TestResult) (agg : AggregatedResults) :
    List OutEvent × Except String (Option Bool) :=
  let trace0 := clearWaitingOn cfg
  let pathStr := pathString cfg rel res.testFilePath
  match res.testExecError with
  | some e =>
    (trace0 ++
      [.out (getResultHeader cfg colorize false pathStr [] ++ "\n"),
       .out (e ++ "\n")],
     .ok (some false))
  | none =>
    let allTestsPassed := res.numFailingTests == 0
    let body :=
      if cfg.verbose then
        verboseTreeEvents cfg colorize res.testResults
      else
        [OutEvent.out (getResultHeader cfg colorize allTestsPassed pathStr
          [testRunTimeString cfg colorize res.perfStats] ++ "\n")]
    let msgs := runMessages cfg colorize res.logMessages
    match msgs.2 with
    | some e => (trace0 ++ body ++ msgs.1, .error e)
    | none =>
      let failEvents :=
        if allTestsPassed then []
        else [OutEvent.out (fmtFailure res (!cfg.noHighlight) ++ "\n")]
      (trace0 ++ body ++ msgs.1 ++ failEvents ++
        printWaitingOn cfg colorize agg, .ok none)

/-- The identity colour function: what `colorize` degenerates to when colour
is off. -/
def idColorize : String → Color → String := fun s _ => s

/-- A concrete colour function for evaluation: wraps its input in brackets. -/
def tagColorize : String → Color → String := fun s _ => "[" ++ s ++ "]"

/-- A concrete stand-in for the external `path.relative`: ignores the root. -/
def relStub : String → String → String := fun _ p => p

/-- A concrete stand-in for the external `formatFailureMessage`. -/
def failStub : TestResult → Bool → String := fun _ _ => "FAILURE"

/-- A configuration with highlighting off. -/
def cfgPlain : Config := ⟨none, false, true⟩

/-- A configuration with highlighting on. -/
def cfgColor : Config := ⟨none, false, false⟩

/-- A per-file result that carries a file-level execution error. -/
def errorResult : TestResult := ⟨"/a/b", some "boom", 0, none, [], []⟩

/-- An aggregate state with one of three tests complete. -/
def aggOneOfThree : AggregatedResults := ⟨1, 0, 3, 0⟩

end Reporter

namespace Reporter

theorem formatMsg_noHighlight (cfg : Config) (colorize : String → Color → String)
    (msg : String) (color : Color) (h : cfg.noHighlight = true) :
    formatMsg cfg colorize msg color = msg := by
  simp [formatMsg, h]

theorem findChild_append_of_none {t : String} {l1 : List (String × GroupNode)}
    (l2 : List (String × GroupNode)) (h : findChild t l1 = none) :
    findChild t (l1 ++ l2) = findChild t l2 := by
  induction l1 with
  | nil => rfl
  | cons hd tl ih =>
    obtain ⟨k, v⟩ := hd
    by_cases hk : k = t
    · simp [findChild, hk] at h
    · simp only [findChild, hk, if_false, List.cons_append] at h ⊢
      exact ih h

theorem findChild_append_of_some {t : String} {l1 : List (String × GroupNode)}
    {v : GroupNode} (l2 : List (String × GroupNode))
    (h : findChild t l1 = some v) : findChild t (l1 ++ l2) = some v := by
  induction l1 with
  | nil => simp [findChild] at h
  | cons hd tl ih =>
    obtain ⟨k, w⟩ := hd
    by_cases hk : k = t
    · simp only [findChild, hk, if_true] at h ⊢
      exact h
    · simp only [findChild, hk, if_false, List.cons_append] at h ⊢
      exact ih h

theorem findChild_replaceChild_ne {u t : String} (v : GroupNode)
    (ch : List (String × GroupNode)) (h : u ≠ t) :
    findChild u (replaceChild t v ch) = findChild u ch := by
  induction ch with
  | nil => simp [replaceChild]
  | cons hd tl ih =>
    obtain ⟨k, w⟩ := hd
    by_cases hk : k = t
    · subst hk
      have hku : ¬(k = u) := fun hh => h hh.symm
      simp [replaceChild, findChild, hku]
    · by_cases hku : k = u
      · subst hku
        simp [replaceChild, findChild, hk]
      · simp [replaceChild, findChild, hk, hku, ih]

theorem replaceChild_decomp {t : String} {ch : List (String × GroupNode)}
    {sub : GroupNode} (h : findChild t ch = some sub) :
    ∃ pre post, ch = pre ++ (t, sub) :: post ∧ findChild t pre = none ∧
      ∀ v, replaceChild t v ch = pre ++ (t, v) :: post := by
  induction ch with
  | nil => simp [findChild] at h
  | cons hd tl ih =>
    obtain ⟨k, w⟩ := hd
    by_cases hk : k = t
    · subst hk
      simp only [findChild, if_true] at h
      obtain rfl : w = sub := by injection h
      refine ⟨[], tl, by simp, by simp [findChild], ?_⟩
      intro v
      simp [replaceChild]
    · simp only [findChild, hk, if_false] at h
      obtain ⟨pre, post, hch, hpre, hrep⟩ := ih h
      refine ⟨(k, w) :: pre, post, by simp [hch], ?_, ?_⟩
      · simp [findChild, hk, hpre]
      · intro v
        simp [replaceChild, hk, hrep v]

theorem leavesF_append (d : Nat) (l1 l2 : List (String × GroupNode)) :
    leavesF d (l1 ++ l2) = leavesF d l1 ++ leavesF d l2 := by
  induction l1 generalizing d with
  | nil => simp [leavesF]
  | cons hd tl ih =>
    obtain ⟨k, node⟩ := hd
    obtain ⟨cs, ch⟩ := node
    simp [leavesF, ih]

theorem leavesF_cons (d : Nat) (t : String) (n : GroupNode)
    (rest : List (String × GroupNode)) :
    leavesF d ((t, n) :: rest) = leavesNode d n ++ leavesF d rest := by
  obtain ⟨cs, ch⟩ := n
  simp [leavesF, leavesNode]

theorem leavesNode_emptyGroup (d : Nat) : leavesNode d emptyGroup = [] := by
  simp [leavesNode, leavesF, emptyGroup]

theorem leavesNode_mk (d : Nat) (cs : List TestCaseResult)
    (ch : List (String × GroupNode)) :
    leavesNode d (GroupNode.mk cs ch) =
      cs.map (fun c => (c, d)) ++ leavesF (d + 1) ch := rfl

theorem renderInto_eq_renderF (cfg : Config)
    (colorize : String → Color → String) (acc : List String)
    (f : List (String × GroupNode)) (d : Nat) :
    renderInto cfg colorize acc f d = acc ++ renderF cfg colorize f d := by
  induction f, d using renderF.induct cfg colorize generalizing acc with
  | case1 d => simp [renderInto, renderF]
  | case2 t cs ch rest d ih1 ih2 =>
    simp only [renderInto, renderF]
    rw [ih2, ih1]
    simp [List.append_assoc]

theorem renderF_colorize_noHighlight (cfg : Config)
    (c1 c2 : String → Color → String) (h : cfg.noHighlight = true)
    (f : List (String × GroupNode)) (d : Nat) :
    renderF cfg c1 f d = renderF cfg c2 f d := by
  induction f, d using renderF.induct cfg c1 with
  | case1 d => simp [renderF]
  | case2 t cs ch rest d ih1 ih2 =>
    simp only [renderF, ih1, ih2]
    simp [caseLine, formatMsg, h]

theorem printConsoleMessage_noHighlight (cfg : Config)
    (c1 c2 : String → Color → String) (h : cfg.noHighlight = true)
    (m : ConsoleMessage) :
    printConsoleMessage cfg c1 m = printConsoleMessage cfg c2 m := by
  simp [printConsoleMessage, formatMsg, h]

theorem runMessages_noHighlight (cfg : Config)
    (c1 c2 : String → Color → String) (h : cfg.noHighlight = true)
    (ms : List ConsoleMessage) :
    runMessages cfg c1 ms = runMessages cfg c2 ms := by
  induction ms with
  | nil => rfl
  | cons m tl ih =>
    simp only [runMessages, printConsoleMessage_noHighlight cfg c1 c2 h m, ih]

theorem getResultHeader_noHighlight (cfg : Config)
    (c1 c2 : String → Color → String) (h : cfg.noHighlight = true)
    (passed : Bool) (testName : String) (columns : List String) :
    getResultHeader cfg c1 passed testName columns =
      getResultHeader cfg c2 passed testName columns := by
  simp [getResultHeader, formatMsg, h]

theorem testRunTimeString_noHighlight (cfg : Config)
    (c1 c2 : String → Color → String) (h : cfg.noHighlight = true)
    (ps : Option PerfStats) :
    testRunTimeString cfg c1 ps = testRunTimeString cfg c2 ps := by
  simp [testRunTimeString, formatMsg, h]

theorem printWaitingOn_noHighlight (cfg : Config)
    (c1 c2 : String → Color → String) (h : cfg.noHighlight = true)
    (agg : AggregatedResults) :
    printWaitingOn cfg c1 agg = printWaitingOn cfg c2 agg := by
  simp [printWaitingOn, formatMsg, h]

theorem verboseTreeEvents_noHighlight (cfg : Config)
    (c1 c2 : String → Color → String) (h : cfg.noHighlight = true)
    (results : List TestCaseResult) :
    verboseTreeEvents cfg c1 results = verboseTreeEvents cfg c2 results := by
  simp only [verboseTreeEvents, renderTreeLines, renderInto_eq_renderF,
    renderF_colorize_noHighlight cfg c1 c2 h]
  simp [caseLine, formatMsg, h]

theorem onTestResult_noHighlight (cfg : Config)
    (c1 c2 : String → Color → String) (h : cfg.noHighlight = true)
    (rel : String → String → String) (ff : TestResult → Bool → String)
    (res : TestResult) (agg : AggregatedResults) :
    onTestResult cfg c1 rel ff res agg = onTestResult cfg c2 rel ff res agg := by
  simp only [onTestResult, getResultHeader_noHighlight cfg c1 c2 h,
    verboseTreeEvents_noHighlight cfg c1 c2 h,
    testRunTimeString_noHighlight cfg c1 c2 h,
    runMessages_noHighlight cfg c1 c2 h,
    printWaitingOn_noHighlight cfg c1 c2 h]

theorem onRunComplete_noHighlight (cfg : Config)
    (c1 c2 : String → Color → String) (h : cfg.noHighlight = true)
    (agg : AggregatedResults) :
    onRunComplete cfg c1 agg = onRunComplete cfg c2 agg := by
  simp [onRunComplete, formatMsg, h]

theorem onTestResult_normal_eq (cfg : Config)
    (colorize : String → Color → String) (rel : String → String → String)
    (ff : TestResult → Bool → String) (res : TestResult)
    (agg : AggregatedResults) (evs : List OutEvent)
    (hexec : res.testExecError = none)
    (hm : runMessages cfg colorize res.logMessages = (evs, none)) :
    onTestResult cfg colorize rel ff res agg =
      (clearWaitingOn cfg ++
        (if cfg.verbose then verboseTreeEvents cfg colorize res.testResults
         else [.out (getResultHeader cfg colorize (res.numFailingTests == 0)
           (pathString cfg rel res.testFilePath)
           [testRunTimeString cfg colorize res.perfStats] ++ "\n")]) ++
        evs ++
        (if res.numFailingTests == 0 then []
         else [.out (ff res (!cfg.noHighlight) ++ "\n")]) ++
        printWaitingOn cfg colorize agg,
       .ok none) := by
  simp [onTestResult, hexec, hm, List.append_assoc]

theorem onTestResult_msgError_eq (cfg : Config)
    (colorize : String → Color → String) (rel : String → String → String)
    (ff : TestResult → Bool → String) (res : TestResult)
    (agg : AggregatedResults) (evs : List OutEvent) (e : String)
    (hexec : res.testExecError = none)
    (hm : runMessages cfg colorize res.logMessages = (evs, some e)) :
    onTestResult cfg colorize rel ff res agg =
      (clearWaitingOn cfg ++
        (if cfg.verbose then verboseTreeEvents cfg colorize res.testResults
         else [.out (getResultHeader cfg colorize (res.numFailingTests == 0)
           (pathString cfg rel res.testFilePath)
           [testRunTimeString cfg colorize res.perfStats] ++ "\n")]) ++
        evs,
       .error e) := by
  simp [onTestResult, hexec, hm, List.append_assoc]

theorem onTestResult_execError_eq (cfg : Config)
    (colorize : String → Color → String) (rel : String → String → String)
    (ff : TestResult → Bool → String) (res : TestResult)
    (agg : AggregatedResults) (e : String)
    (hexec : res.testExecError = some e) :
    onTestResult cfg colorize rel ff res agg =
      (clearWaitingOn cfg ++
        [.out (getResultHeader cfg colorize false
          (pathString cfg rel res.testFilePath) [] ++ "\n"),
         .out (e ++ "\n")],
       .ok (some false)) := by
  simp [onTestResult, hexec, List.append_assoc]

/-- C5: a per-file result carrying `testExecError` short-circuits reporting —
after the erasure write, exactly the colorized FAIL header line and the raw
error text are emitted, the call returns the boolean `false`, and no tree
lines, case lines or console messages appear in the trace. -/
theorem c5_exec_error_short_circuits (cfg : Config)
    (colorize : String → Color → String) (rel : String → String → String)
    (ff : TestResult → Bool → String) (res : TestResult)
    (agg : AggregatedResults) (e : String)
    (h : res.testExecError = some e) :
    onTestResult cfg colorize rel ff res agg =
      (clearWaitingOn cfg ++
        [.out (getResultHeader cfg colorize false
          (pathString cfg rel res.testFilePath) [] ++ "\n"),
         .out (e ++ "\n")],
       .ok (some false)) := by
  simp [onTestResult, h, List.append_assoc]

/-- Witness for C5 at a concrete erroring result. -/
theorem c5_exec_error_short_circuits_witness :
    errorResult.testExecError = some "boom" ∧
    onTestResult cfgPlain idColorize relStub failStub errorResult aggOneOfThree =
      (clearWaitingOn cfgPlain ++
        [.out (getResultHeader cfgPlain idColorize false
          (pathString cfgPlain relStub errorResult.testFilePath) [] ++ "\n"),
         .out ("boom" ++ "\n")],
       .ok (some false)) :=
  ⟨rfl, c5_exec_error_short_circuits cfgPlain idColorize relStub failStub
    errorResult aggOneOfThree "boom" rfl⟩

/-- C6: a console message of type `log` or `dir` is written verbatim to
standard output, `warn` goes to standard error colorized yellow, `error` goes
to standard error colorized red, and every other type raises an error naming
the offending type. -/
theorem c6_console_message_dispatch (cfg : Config)
    (colorize : String → Color → String) (m : ConsoleMessage)
    (h : cfg.noHighlight = false) :
    ((m.type = "log" ∨ m.type = "dir") →
      printConsoleMessage cfg colorize m = .ok [.out m.data]) ∧
    (m.type = "warn" →
      printConsoleMessage cfg colorize m =
        .ok [.err (colorize m.data [.YELLOW])]) ∧
    (m.type = "error" →
      printConsoleMessage cfg colorize m =
        .ok [.err (colorize m.data [.RED])]) ∧
    (m.type ≠ "log" → m.type ≠ "dir" → m.type ≠ "warn" → m.type ≠ "error" →
      printConsoleMessage cfg colorize m =
        .error ("Unknown console message type!: " ++ m.type)) := by
  refine ⟨?_, ?_, ?_, ?_⟩
  · rintro (h1 | h1) <;> simp [printConsoleMessage, h1]
  · intro h1
    simp [printConsoleMessage, h1, formatMsg, h]
  · intro h1
    simp [printConsoleMessage, h1, formatMsg, h]
  · intro h1 h2 h3 h4
    simp [printConsoleMessage, h1, h2, h3, h4]

/-- Witness for C6 at a concrete warning and a concrete unknown type. -/
theorem c6_console_message_dispatch_witness :
    cfgColor.noHighlight = false ∧
    printConsoleMessage cfgColor tagColorize ⟨"warn", "w"⟩ =
      .ok [.err (tagColorize "w" [.YELLOW])] ∧
    printConsoleMessage cfgColor tagColorize ⟨"trace", "t"⟩ =
      .error ("Unknown console message type!: " ++ "trace") :=
  ⟨rfl,
   (c6_console_message_dispatch cfgColor tagColorize ⟨"warn", "w"⟩ rfl).2.1 rfl,
   (c6_console_message_dispatch cfgColor tagColorize ⟨"trace", "t"⟩ rfl).2.2.2
     (by decide) (by decide) (by decide) (by decide)⟩

/-- C7: with a zero total the aggregate summary emits nothing; otherwise it
emits one line made of the failed fragment (omitted entirely when the failed
count is zero) and the passed fragment with the total, then the run-time
line; the noun is singular exactly for a count of one. -/
theorem c7_run_summary (cfg : Config) (colorize : String → Color → String)
    (agg : AggregatedResults) (h : cfg.noHighlight = true) :
    (agg.numTotalTests = 0 → onRunComplete cfg colorize agg = []) ∧
    (agg.numTotalTests ≠ 0 → onRunComplete cfg colorize agg =
      [.out ((if agg.numFailedTests ≠ 0 then
                toString agg.numFailedTests ++ " test" ++
                  (if agg.numFailedTests = 1 then "" else "s") ++ " failed" ++ ", "
              else "") ++
             (toString agg.numPassedTests ++ " test" ++
               (if agg.numPassedTests = 1 then "" else "s") ++ " passed") ++
             " (" ++ toString agg.numTotalTests ++ " total)" ++ "\n"),
       .out ("Run time: " ++ ratStr agg.runTime ++ "s\n")]) := by
  constructor
  · intro h0
    simp [onRunComplete, h0]
  · intro h0
    simp [onRunComplete, h0, formatMsg, h, String.append_assoc]

/-- Witness for C7: one passed test out of one total yields exactly
`1 test passed (1 total)` plus the run-time line, and a zero total yields
nothing. -/
theorem c7_run_summary_witness :
    onRunComplete cfgPlain idColorize ⟨1, 0, 1, 3⟩ =
      [.out "1 test passed (1 total)\n", .out "Run time: 3s\n"] ∧
    onRunComplete cfgPlain idColorize ⟨0, 0, 0, 3⟩ = [] := by
  constructor
  · have h2 := (c7_run_summary cfgPlain idColorize ⟨1, 0, 1, 3⟩ rfl).2
      (by decide)
    rw [h2]
    decide
  · exact (c7_run_summary cfgPlain idColorize ⟨0, 0, 0, 3⟩ rfl).1 rfl

/-- C8: with the no-highlight flag set, `formatMsg` returns its input
unchanged, every reporting entry point produces output independent of the
`colorize` collaborator (byte-identical to the uncolored text), and the
waiting-line erasure is a plain newline rather than the ANSI clear escape. -/
theorem c8_no_highlight_is_identity (cfg : Config)
    (h : cfg.noHighlight = true) :
    (∀ colorize msg color, formatMsg cfg colorize msg color = msg) ∧
    clearWaitingOn cfg = [.out "\n"] ∧
    (∀ colorize rel ff res agg,
      onTestResult cfg colorize rel ff res agg =
        onTestResult cfg idColorize rel ff res agg) ∧
    (∀ colorize agg,
      onRunComplete cfg colorize agg = onRunComplete cfg idColorize agg) ∧
    (∀ colorize agg,
      printWaitingOn cfg colorize agg = printWaitingOn cfg idColorize agg) ∧
    (∀ colorize m,
      printConsoleMessage cfg colorize m =
        printConsoleMessage cfg idColorize m) :=
  ⟨fun c msg col => formatMsg_noHighlight cfg c msg col h,
   by simp [clearWaitingOn, h],
   fun c rel ff res agg => onTestResult_noHighlight cfg c idColorize h rel ff res agg,
   fun c agg => onRunComplete_noHighlight cfg c idColorize h agg,
   fun c agg => printWaitingOn_noHighlight cfg c idColorize h agg,
   fun c m => printConsoleMessage_noHighlight cfg c idColorize h m⟩

/-- Witness for C8 at a concrete colour function and message. -/
theorem c8_no_highlight_is_identity_witness :
    formatMsg cfgPlain tagColorize "abc" FAIL_COLOR = "abc" ∧
    clearWaitingOn cfgPlain = [.out "\n"] ∧
    onRunComplete cfgPlain tagColorize ⟨1, 1, 2, 3⟩ =
      onRunComplete cfgPlain idColorize ⟨1, 1, 2, 3⟩ :=
  ⟨(c8_no_highlight_is_identity cfgPlain rfl).1 tagColorize "abc" FAIL_COLOR,
   (c8_no_highlight_is_identity cfgPlain rfl).2.1,
   (c8_no_highlight_is_identity cfgPlain rfl).2.2.2.1 tagColorize ⟨1, 1, 2, 3⟩⟩

/-- C9: with `perfStats` present the elapsed-time annotation is
`(<seconds>s)` for `seconds = (end - start) / 1000`, colorized with the FAIL
colour scheme exactly when the seconds exceed `5/2` (so exactly `5/2` stays
uncolored), and the non-verbose header attaches that annotation as a column
computed without reference to the pass/fail outcome. -/
theorem c9_slow_time_coloring (cfg : Config)
    (colorize : String → Color → String) (s e : ℚ)
    (h : cfg.noHighlight = false) :
    ((e - s) / 1000 > 5 / 2 →
      testRunTimeString cfg colorize (some ⟨s, e⟩) =
        colorize ("(" ++ ratStr ((e - s) / 1000) ++ "s)") FAIL_COLOR) ∧
    ((e - s) / 1000 ≤ 5 / 2 →
      testRunTimeString cfg colorize (some ⟨s, e⟩) =
        "(" ++ ratStr ((e - s) / 1000) ++ "s)") ∧
    (∀ (rel : String → String → String) (ff : TestResult → Bool → String)
        (res : TestResult) (agg : AggregatedResults),
      res.testExecError = none → cfg.verbose = false →
      ∃ pre post, (onTestResult cfg colorize rel ff res agg).1 =
        pre ++ [.out (getResultHeader cfg colorize (res.numFailingTests == 0)
          (pathString cfg rel res.testFilePath)
          [testRunTimeString cfg colorize res.perfStats] ++ "\n")] ++ post) := by
  refine ⟨?_, ?_, ?_⟩
  · intro hgt
    simp [testRunTimeString, testRunTime, jsToString, jsNumOf, formatMsg, h, hgt]
  · intro hle
    simp [testRunTimeString, testRunTime, jsToString, jsNumOf, not_lt.mpr hle]
  · intro rel ff res agg hexec hverb
    rcases hm : runMessages cfg colorize res.logMessages with ⟨evs, erro⟩
    cases erro with
    | none =>
      rw [onTestResult_normal_eq cfg colorize rel ff res agg evs hexec hm]
      exact ⟨clearWaitingOn cfg,
        evs ++ (if res.numFailingTests == 0 then []
          else [.out (ff res (!cfg.noHighlight) ++ "\n")]) ++
          printWaitingOn cfg colorize agg,
        by simp [hverb, List.append_assoc]⟩
    | some e2 =>
      rw [onTestResult_msgError_eq cfg colorize rel ff res agg evs e2 hexec hm]
      exact ⟨clearWaitingOn cfg, evs, by simp [hverb, List.append_assoc]⟩

/-- Witness for C9: 3000 ms is slow and colorized, 2500 ms sits exactly on
the boundary and stays plain. -/
theorem c9_slow_time_coloring_witness :
    ((3000 : ℚ) - 0) / 1000 > 5 / 2 ∧
    testRunTimeString cfgColor tagColorize (some ⟨0, 3000⟩) =
      tagColorize ("(" ++ ratStr (((3000 : ℚ) - 0) / 1000) ++ "s)") FAIL_COLOR ∧
    ((2500 : ℚ) - 0) / 1000 ≤ 5 / 2 ∧
    testRunTimeString cfgColor tagColorize (some ⟨0, 2500⟩) =
      "(" ++ ratStr (((2500 : ℚ) - 0) / 1000) ++ "s)" :=
  ⟨by norm_num,
   (c9_slow_time_coloring cfgColor tagColorize 0 3000 rfl).1 (by norm_num),
   by norm_num,
   (c9_slow_time_coloring cfgColor tagColorize 0 2500 rfl).2.1 (by norm_num)⟩

/-- C10: with `perfStats` absent the computed run time is `null`, the
annotation is the literal `(nulls)` and is never colorized as slow (for any
configuration and colour function), and the non-verbose header still renders
normally with that annotation. -/
theorem c10_null_run_time (cfg : Config)
    (colorize : String → Color → String) (rel : String → String → String)
    (ff : TestResult → Bool → String) (res : TestResult)
    (agg : AggregatedResults) (h : res.perfStats = none) :
    testRunTime res.perfStats = none ∧
    testRunTimeString cfg colorize res.perfStats = "(nulls)" ∧
    (res.testExecError = none → cfg.verbose = false →
      ∃ post, (onTestResult cfg colorize rel ff res agg).1 =
        clearWaitingOn cfg ++
          [.out (getResultHeader cfg colorize (res.numFailingTests == 0)
            (pathString cfg rel res.testFilePath) ["(nulls)"] ++ "\n")] ++
          post) := by
  have hs : testRunTimeString cfg colorize res.perfStats = "(nulls)" := by
    rw [h]
    simp only [testRunTimeString, testRunTime, Option.map_none]
    rw [if_neg (by norm_num [jsNumOf])]
    rfl
  refine ⟨by rw [h]; rfl, hs, ?_⟩
  intro hexec hverb
  rcases hm : runMessages cfg colorize res.logMessages with ⟨evs, erro⟩
  cases erro with
  | none =>
    rw [onTestResult_normal_eq cfg colorize rel ff res agg evs hexec hm]
    exact ⟨evs ++ (if res.numFailingTests == 0 then []
        else [.out (ff res (!cfg.noHighlight) ++ "\n")]) ++
        printWaitingOn cfg colorize agg,
      by simp [hverb, hs, List.append_assoc]⟩
  | some e2 =>
    rw [onTestResult_msgError_eq cfg colorize rel ff res agg evs e2 hexec hm]
    exact ⟨evs, by simp [hverb, hs, List.append_assoc]⟩

/-- C2: every group title string — including object-prototype property names
such as `toString` — that is not yet a key of a node's children gets its own
fresh, independent child holding exactly the inserted case and no children,
appended after the existing children; the node's own cases and every other
child key are untouched, and no title string is treated differently from any
other (the statement is uniform in the title). -/
theorem c2_reserved_titles_are_ordinary_keys (t : String)
    (r : TestCaseResult) (g : GroupNode)
    (h : findChild t g.children = none) :
    insertCase r [t] g =
      GroupNode.mk g.cases (g.children ++ [(t, GroupNode.mk [r] [])]) ∧
    (∀ u, u ≠ t →
      findChild u (g.children ++ [(t, GroupNode.mk [r] [])]) =
        findChild u g.children) ∧
    findChild t (g.children ++ [(t, GroupNode.mk [r] [])]) =
      some (GroupNode.mk [r] []) := by
  obtain ⟨cs, ch⟩ := g
  simp only [GroupNode.children, GroupNode.cases] at h ⊢
  refine ⟨?_, ?_, ?_⟩
  · simp [insertCase, h, emptyGroup]
  · intro u hu
    cases hfu : findChild u ch with
    | none =>
      rw [findChild_append_of_none _ hfu]
      have htu : ¬(t = u) := fun hh => hu hh.symm
      simp [findChild, htu, hfu]
    | some w => rw [findChild_append_of_some _ hfu]
  · rw [findChild_append_of_none _ h]
    simp [findChild]

/-- Witness for C2 at the prototype-property title `toString`. -/
theorem c2_reserved_titles_are_ordinary_keys_witness :
    findChild "toString" emptyGroup.children = none ∧
    insertCase ⟨"x", ["toString"], []⟩ ["toString"] emptyGroup =
      GroupNode.mk emptyGroup.cases
        (emptyGroup.children ++
          [("toString", GroupNode.mk [⟨"x", ["toString"], []⟩] [])]) :=
  ⟨rfl, (c2_reserved_titles_are_ordinary_keys "toString"
    ⟨"x", ["toString"], []⟩ emptyGroup rfl).1⟩

/-- C3: the emission loop of the renderer is a depth-first pre-order
traversal in stored order — visiting a group at depth `d` appends the
uncolored title line at two-spaces-times-`d` indentation, then one colorized
line per own case at indentation `d + 1` (PASS colour exactly when
`failureMessages` is empty, FAIL colour otherwise) in stored order, then the
whole rendering of its children at depth `d + 1`, then the rendering of its
later siblings at depth `d`; an empty forest appends nothing. -/
theorem c3_render_is_preorder (cfg : Config)
    (colorize : String → Color → String) (acc : List String) (t : String)
    (cs : List TestCaseResult) (ch rest : List (String × GroupNode))
    (d : Nat) :
    renderInto cfg colorize acc [] d = acc ∧
    renderInto cfg colorize acc ((t, .mk cs ch) :: rest) d =
      acc ++ (indentStr d ++ t) ::
        (cs.map (fun c => formatMsg cfg colorize (indentStr (d + 1) ++ c.title)
          (if c.failureMessages = [] then PASS_COLOR else FAIL_COLOR)) ++
         renderInto cfg colorize [] ch (d + 1) ++
         renderInto cfg colorize [] rest d) := by
  constructor
  · simp [renderInto]
  · rw [renderInto_eq_renderF, renderInto_eq_renderF cfg colorize [] ch,
      renderInto_eq_renderF cfg colorize [] rest]
    simp [renderF, caseLine]

/-- C4 (amended): every per-file call starts with the erasure write; a call
whose result has no `testExecError` and whose console messages are all valid
ends with the re-emitted waiting line exactly when the remaining count is
positive (nothing is appended when it is zero or negative); a call whose
result carries `testExecError` returns after the error text with no waiting
re-emission. -/
theorem c4_waiting_line_discipline (cfg : Config)
    (colorize : String → Color → String) (rel : String → String → String)
    (ff : TestResult → Bool → String) (res : TestResult)
    (agg : AggregatedResults) :
    (∃ rest, (onTestResult cfg colorize rel ff res agg).1 =
      clearWaitingOn cfg ++ rest) ∧
    (res.testExecError = none →
      (runMessages cfg colorize res.logMessages).2 = none →
      ∃ body, (onTestResult cfg colorize rel ff res agg).1 =
        clearWaitingOn cfg ++ body ++ printWaitingOn cfg colorize agg) ∧
    (∀ e, res.testExecError = some e →
      (onTestResult cfg colorize rel ff res agg).1 =
        clearWaitingOn cfg ++
          [.out (getResultHeader cfg colorize false
            (pathString cfg rel res.testFilePath) [] ++ "\n"),
           .out (e ++ "\n")]) ∧
    (remainingTests agg ≤ 0 → printWaitingOn cfg colorize agg = []) ∧
    (remainingTests agg > 0 → printWaitingOn cfg colorize agg =
      [.out (formatMsg cfg colorize
        ("Waiting on " ++ toString (remainingTests agg) ++ " " ++
          (if remainingTests agg = 1 then "test" else "tests") ++ "...")
        ([.GRAY] ++ [.BOLD]))]) := by
  refine ⟨?_, ?_, ?_, ?_, ?_⟩
  · cases hexec : res.testExecError with
    | none =>
      rcases hm : runMessages cfg colorize res.logMessages with ⟨evs, erro⟩
      cases erro with
      | none =>
        rw [onTestResult_normal_eq cfg colorize rel ff res agg evs hexec hm]
        exact ⟨(if cfg.verbose then verboseTreeEvents cfg colorize res.testResults
            else [.out (getResultHeader cfg colorize (res.numFailingTests == 0)
              (pathString cfg rel res.testFilePath)
              [testRunTimeString cfg colorize res.perfStats] ++ "\n")]) ++
            evs ++
            (if res.numFailingTests == 0 then []
             else [.out (ff res (!cfg.noHighlight) ++ "\n")]) ++
            printWaitingOn cfg colorize agg,
          by simp [List.append_assoc]⟩
      | some e2 =>
        rw [onTestResult_msgError_eq cfg colorize rel ff res agg evs e2 hexec hm]
        exact ⟨(if cfg.verbose then verboseTreeEvents cfg colorize res.testResults
            else [.out (getResultHeader cfg colorize (res.numFailingTests == 0)
              (pathString cfg rel res.testFilePath)
              [testRunTimeString cfg colorize res.perfStats] ++ "\n")]) ++
            evs,
          by simp [List.append_assoc]⟩
    | some e =>
      rw [onTestResult_execError_eq cfg colorize rel ff res agg e hexec]
      exact ⟨_, rfl⟩
  · intro hexec hnoerr
    rcases hm : runMessages cfg colorize res.logMessages with ⟨evs, erro⟩
    rw [hm] at hnoerr
    cases hnoerr
    rw [onTestResult_normal_eq cfg colorize rel ff res agg evs hexec hm]
    exact ⟨(if cfg.verbose then verboseTreeEvents cfg colorize res.testResults
        else [.out (getResultHeader cfg colorize (res.numFailingTests == 0)
          (pathString cfg rel res.testFilePath)
          [testRunTimeString cfg colorize res.perfStats] ++ "\n")]) ++
        evs ++
        (if res.numFailingTests == 0 then []
         else [.out (ff res (!cfg.noHighlight) ++ "\n")]),
      by simp [List.append_assoc]⟩
  · intro e hexec
    rw [onTestResult_execError_eq cfg colorize rel ff res agg e hexec]
  · intro h4
    simp only [printWaitingOn]
    rw [if_neg (by omega)]
  · intro h5
    simp only [printWaitingOn]
    rw [if_pos h5]

/-- Witness for C4 (amended): a concrete normal call ends with the waiting
line, and a concrete erroring call emits exactly the header and error text. -/
theorem c4_waiting_line_discipline_witness :
    printWaitingOn cfgPlain idColorize aggOneOfThree =
      [.out "Waiting on 2 tests..."] ∧
    (onTestResult cfgPlain idColorize relStub failStub errorResult
      aggOneOfThree).1 =
      clearWaitingOn cfgPlain ++
        [.out (getResultHeader cfgPlain idColorize false
          (pathString cfgPlain relStub errorResult.testFilePath) [] ++ "\n"),
         .out ("boom" ++ "\n")] := by
  constructor
  · have h5 := (c4_waiting_line_discipline cfgPlain idColorize relStub failStub
      errorResult aggOneOfThree).2.2.2.2 (by decide)
    rw [h5]
    decide
  · exact (c4_waiting_line_discipline cfgPlain idColorize relStub failStub
      errorResult aggOneOfThree).2.2.1 "boom" rfl

/-- Counterexample to C4 as stated: a result with `testExecError` while two
tests are still outstanding — the remaining count is positive, the waiting
line write is nonempty, yet the trace of the call never re-emits it (the
trace ends with the raw error text). -/
theorem c4_counterexample_no_waiting_after_exec_error :
    remainingTests aggOneOfThree > 0 ∧
    errorResult.testExecError = some "boom" ∧
    printWaitingOn cfgPlain idColorize aggOneOfThree =
      [.out "Waiting on 2 tests..."] ∧
    (onTestResult cfgPlain idColorize relStub failStub errorResult
      aggOneOfThree).1 = [.out "\n", .out " FAIL  /a/b\n", .out "boom\n"] ∧
    OutEvent.out "Waiting on 2 tests..." ∉
      (onTestResult cfgPlain idColorize relStub failStub errorResult
        aggOneOfThree).1 :=
  ⟨by decide, rfl, by decide, by decide, by decide⟩

theorem leavesNode_insertCase (r : TestCaseResult) (p : List String)
    (g : GroupNode) (d : Nat) :
    List.Perm (leavesNode d (insertCase r p g))
      ((r, d + p.length) :: leavesNode d g) := by
  rw [← Multiset.coe_eq_coe]
  induction p, g using insertCase.induct r generalizing d with
  | case1 cs ch =>
    simp only [insertCase, leavesNode_mk, List.map_append, List.map_cons,
      List.map_nil, List.length_nil, Nat.add_zero]
    simp only [← Multiset.coe_add, ← Multiset.cons_coe, Multiset.coe_singleton]
    simp [Multiset.cons_add, Multiset.add_cons, Multiset.singleton_add,
      ← Multiset.cons_zero]
  | case2 t rest cs ch sub hfind ih =>
    obtain ⟨pre, post, hch, hpre, hrep⟩ := replaceChild_decomp hfind
    simp only [insertCase, hfind]
    rw [hrep, hch]
    simp only [leavesNode_mk, leavesF_append, leavesF_cons, List.length_cons]
    have hx : d + (rest.length + 1) = (d + 1) + rest.length := by omega
    rw [hx]
    have h2 := ih (d + 1)
    simp only [← Multiset.coe_add, ← Multiset.cons_coe] at h2 ⊢
    rw [h2]
    simp only [Multiset.cons_add, Multiset.add_cons]
  | case3 t rest cs ch hfind ih =>
    simp only [insertCase, hfind]
    simp only [leavesNode_mk, leavesF_append, leavesF_cons, leavesF,
      List.append_nil, List.length_cons]
    have hx : d + (rest.length + 1) = (d + 1) + rest.length := by omega
    rw [hx]
    have h2 := ih (d + 1)
    rw [leavesNode_emptyGroup] at h2
    simp only [← Multiset.coe_add, ← Multiset.cons_coe] at h2 ⊢
    rw [h2]
    simp only [Multiset.cons_add, Multiset.add_cons, Multiset.coe_nil,
      add_zero]

theorem leaves_buildTree (rs : List TestCaseResult) :
    List.Perm (leavesNode 0 (buildTree rs))
      (rs.map (fun c => (c, c.ancestorTitles.length))) := by
  suffices h : ∀ g, List.Perm
      (leavesNode 0 (rs.foldl (fun g r => insertCase r r.ancestorTitles g) g))
      (rs.map (fun c => (c, c.ancestorTitles.length)) ++ leavesNode 0 g) by
    have h0 := h emptyGroup
    rw [leavesNode_emptyGroup, List.append_nil] at h0
    exact h0
  induction rs with
  | nil => intro g; simp
  | cons r tl ih =>
    intro g
    simp only [List.foldl_cons, List.map_cons, List.cons_append]
    have h1 := ih (insertCase r r.ancestorTitles g)
    have h2 : List.Perm (leavesNode 0 (insertCase r r.ancestorTitles g))
        ((r, r.ancestorTitles.length) :: leavesNode 0 g) := by
      simpa using leavesNode_insertCase r r.ancestorTitles g 0
    have h3 := List.Perm.append_left
      (tl.map fun c => (c, c.ancestorTitles.length)) h2
    exact h1.trans (h3.trans List.perm_middle)
 
theorem casesAt_emptyGroup (p : List String) : casesAt emptyGroup p = [] := by
  cases p with
  | nil => rfl
  | cons t rest => simp [casesAt, nodeAt, emptyGroup, GroupNode.children, findChild]

theorem casesAt_insertCase (r : TestCaseResult) (p : List String)
    (g : GroupNode) :
    casesAt (insertCase r p g) p = casesAt g p ++ [r] := by
  induction p, g using insertCase.induct r with
  | case1 cs ch =>
    simp [insertCase, casesAt, nodeAt, GroupNode.cases]
  | case2 t rest cs ch sub hfind ih =>
    obtain ⟨pre, post, hch, hpre, hrep⟩ := replaceChild_decomp hfind
    have hf1 : findChild t (pre ++ (t, insertCase r rest sub) :: post) =
        some (insertCase r rest sub) := by
      rw [findChild_append_of_none _ hpre]
      simp [findChild]
    simp only [insertCase, hfind]
    rw [hrep]
    simp only [casesAt, nodeAt, GroupNode.children, hf1, hfind]
    simpa [casesAt] using ih
  | case3 t rest cs ch hfind ih =>
    have hf1 : findChild t (ch ++ [(t, insertCase r rest emptyGroup)]) =
        some (insertCase r rest emptyGroup) := by
      rw [findChild_append_of_none _ hfind]
      simp [findChild]
    simp only [insertCase, hfind]
    simp only [casesAt, nodeAt, GroupNode.children, hf1, hfind]
    have he := casesAt_emptyGroup rest
    simp only [casesAt] at ih he
    rw [ih, he]

theorem nodeAt_isSome_insertCase (r : TestCaseResult) (p q : List String)
    (g : GroupNode) (h : (nodeAt g q).isSome) :
    (nodeAt (insertCase r p g) q).isSome := by
  induction p, g using insertCase.induct r generalizing q with
  | case1 cs ch =>
    cases q with
    | nil => simp [nodeAt]
    | cons u qr =>
      simp only [insertCase, nodeAt, GroupNode.children] at h ⊢
      exact h
  | case2 t rest cs ch sub hfind ih =>
    cases q with
    | nil => simp [nodeAt]
    | cons u qr =>
      simp only [insertCase, hfind]
      by_cases hu : u = t
      · subst hu
        obtain ⟨pre, post, hch, hpre, hrep⟩ := replaceChild_decomp hfind
        have hf1 : findChild u (pre ++ (u, insertCase r rest sub) :: post) =
            some (insertCase r rest sub) := by
          rw [findChild_append_of_none _ hpre]
          simp [findChild]
        rw [hrep]
        simp only [nodeAt, GroupNode.children, hf1]
        simp only [nodeAt, GroupNode.children, hfind] at h
        exact ih qr h
      · simp only [nodeAt, GroupNode.children,
          findChild_replaceChild_ne _ ch hu] at h ⊢
        cases hfu : findChild u ch with
        | none => rw [hfu] at h; simp at h
        | some w => rw [hfu] at h; exact h
  | case3 t rest cs ch hfind ih =>
    cases q with
    | nil => simp [nodeAt]
    | cons u qr =>
      simp only [insertCase, hfind]
      by_cases hu : u = t
      · subst hu
        simp only [nodeAt, GroupNode.children, hfind] at h
        simp at h
      · simp only [nodeAt, GroupNode.children] at h ⊢
        cases hfu : findChild u ch with
        | none => rw [hfu] at h; simp at h
        | some w =>
          rw [hfu] at h
          rw [findChild_append_of_some _ hfu]
          exact h

/-- C1: building folds the ordered input cases into the tree so that (i) the
leaves of the built tree, paired with their depths, are exactly the input
cases each paired with the length of its `ancestorTitles` (each case appears
exactly once, at that depth — a case with empty `ancestorTitles` sits in the
root's own cases at depth zero); (ii) appending one more result to the input
appends that case, and nothing else, to the `cases` list of the node at the
end of its ancestor-title walk; (iii) every node that exists before an
insertion still exists after it (existing groups are reused, never
recreated). -/
theorem c1_build_places_each_case_once (rs : List TestCaseResult)
    (r : TestCaseResult) (q : List String) :
    List.Perm (leavesNode 0 (buildTree rs))
      (rs.map (fun c => (c, c.ancestorTitles.length))) ∧
    casesAt (buildTree (rs ++ [r])) r.ancestorTitles =
      casesAt (buildTree rs) r.ancestorTitles ++ [r] ∧
    ((nodeAt (buildTree rs) q).isSome →
      (nodeAt (buildTree (rs ++ [r])) q).isSome) := by
  have hb : buildTree (rs ++ [r]) =
      insertCase r r.ancestorTitles (buildTree rs) := by
    simp [buildTree, List.foldl_append]
  refine ⟨leaves_buildTree rs, ?_, ?_⟩
  · rw [hb]
    exact casesAt_insertCase r r.ancestorTitles (buildTree rs)
  · intro h
    rw [hb]
    exact nodeAt_isSome_insertCase r r.ancestorTitles q (buildTree rs) h

/-- Witness for C1: a concrete two-result build in which the second result
reuses the group created by the first. -/
theorem c1_build_places_each_case_once_witness :
    (nodeAt (buildTree [⟨"x", ["A"], []⟩]) ["A"]).isSome = true ∧
    (nodeAt (buildTree ([⟨"x", ["A"], []⟩] ++ [⟨"y", ["A", "B"], []⟩]))
      ["A"]).isSome = true :=
  ⟨by decide,
   (c1_build_places_each_case_once [⟨"x", ["A"], []⟩] ⟨"y", ["A", "B"], []⟩
     ["A"]).2.2 (by decide)⟩

/-- Witness for C10 at a concrete result with no `perfStats`. -/
theorem c10_null_run_time_witness :
    testRunTimeString cfgColor tagColorize
      (⟨"/a/b", none, 0, none, [], []⟩ : TestResult).perfStats = "(nulls)" :=
  (c10_null_run_time cfgColor tagColorize relStub failStub
    ⟨"/a/b", none, 0, none, [], []⟩ aggOneOfThree rfl).2.1

end Reporter
